import Mathlib

/-!
Shallow embedding of the aiomemq in-memory pub/sub broker
(src/cpp/aiomemq.cpp) and proofs of its specification claims.

Modelling conventions:
* A live client session (a `shared_ptr<Session>`) is modelled by a natural
  number identifier; the `std::set<SessionPtr>` forward sets become
  `Finset Nat` (the `std::set` iteration order becomes the numeric order
  produced by `Finset.sort`).
* The four process-wide `unordered_map`s become total functions with the
  value-initialised defaults of `operator[]` (empty set, empty deque, 0).
* C++ `int` / `int64_t` become `Int`; the one place the code narrows an
  `int64` to `int` (`static_cast<int>` on `last_seen`) is modelled
  explicitly by `toInt32` (C++20 narrowing is two's-complement modular).
* `std::deque<js::object>` replay caches become `List Msg`, front at the
  head.  `trim_cache`s `while` loop pops the front while `size > cache_size`;
  popping an empty deque is undefined behaviour, modelled as `none`.
* Socket writes become a list of (session id, output) pairs in write order.
* The random draw of the "one" delivery branch is modelled by an explicit
  `pick` offset into the ordered subscriber set (`dist(rng)` yields some
  offset `< subs.size()`).
-/

namespace Aiomemq

/-- A validated and index-annotated `send` object as stored in a replay
cache and delivered to subscribers: the publisher-supplied fields of the
`send` schema plus the broker-assigned `index` (`cmd["index"] = idx`). -/
structure Msg where
  topic : String
  msg : String
  delivery : String
  cache : Option Bool
  index : Int

/-- The publisher-supplied fields of a validated `send` command
(schema `template_send`). -/
structure SendCmd where
  topic : String
  msg : String
  delivery : String
  cache : Option Bool

/-- The fields of a validated `subscribe` command (schema
`template_subscribe`); absent optional fields are `none`. -/
structure SubscribeCmd where
  topic : String
  last_seen : Option Int
  cache : Option Bool

/-- The in-place annotation `cmd["index"] = idx` of `handle_send`. -/
def SendCmd.annotate (c : SendCmd) (idx : Int) : Msg :=
  ⟨c.topic, c.msg, c.delivery, c.cache, idx⟩

/-- The process-wide broker state: the maps `topics`, `topics_rev`,
`caches` and `indexs` of the source, as total functions whose values at
missing keys are the `operator[]` value-initialised defaults. -/
structure BrokerState where
  topics : String → Finset Nat
  topics_rev : Nat → Finset String
  caches : String → List Msg
  indexs : String → Int

/-- The state at process start: all four maps empty. -/
def initState : BrokerState :=
  ⟨fun _ => ∅, fun _ => ∅, fun _ => [], fun _ => 0⟩

def DEFAULT_PORT : Int := 7000

def DEFAULT_CACHE_SIZE : Int := 100

/-- C++20 `static_cast<int>` of an `int64_t`: two's-complement wrap into
the 32-bit signed range. -/
def toInt32 (n : Int) : Int := (n + 2 ^ 31) % 2 ^ 32 - 2 ^ 31

/-- trim_cache: `while (int)q.size() > cache_size: q.pop_front()`.
Returns `none` when the loop would call `pop_front` on an empty deque
(undefined behaviour, reachable exactly when `cache_size < 0`). -/
def trim_cache (cs : Int) : List Msg → Option (List Msg)
  | [] => if (0 : Int) > cs then none else some []
  | m :: q => if (((m :: q).length : Int)) > cs then trim_cache cs q else some (m :: q)

/-- The replay loop of send_cached: the cached messages with
`m.at("index").as_int64() > last_seen`, in cache order. -/
def send_cached_replay (last_seen : Int) (q : List Msg) : List Msg :=
  q.filter (fun m => decide (m.index > last_seen))

/-- The rebuild loop of send_cached: keep `m` iff
`idx <= last_seen || m.at("delivery") == "all"`, preserving order. -/
def send_cached_rebuild (last_seen : Int) (q : List Msg) : List Msg :=
  q.filter (fun m => decide (m.index ≤ last_seen) || decide (m.delivery = "all"))

/-- One outbound frame written to a socket. -/
inductive Out where
  | success
  | failure (reason : String)
  | deliver (m : Msg)

/-- The sequence of socket writes of one command handler, in write order:
(destination session, frame). -/
abbrev Outs := List (Nat × Out)

/-- The registry mutation of handle_subscribe:
`topics[topic].insert(self); topics_rev[self].insert(topic)`. -/
def subscribe_register (sid : Nat) (topic : String) (s : BrokerState) : BrokerState :=
  { s with
      topics := Function.update s.topics topic (insert sid (s.topics topic)),
      topics_rev := Function.update s.topics_rev sid (insert topic (s.topics_rev sid)) }

/-- The effective `last_seen` of handle_subscribe: `-1` when the field is
absent, otherwise `static_cast<int>(it->value().as_int64())`. -/
def effLastSeen : Option Int → Int
  | none => -1
  | some v => toInt32 v

/-- Session::handle_subscribe followed by send_cached when
`cache` is absent or `true`: register in both maps, reply success, then
replay the unseen cached messages and rebuild + trim the cache.  `none`
models the undefined behaviour of `trim_cache` on a negative capacity. -/
def handle_subscribe (cs : Int) (sid : Nat) (cmd : SubscribeCmd) (s : BrokerState) :
    Option (BrokerState × Outs) :=
  if cmd.cache.getD true then
    match trim_cache cs (send_cached_rebuild (effLastSeen cmd.last_seen) (s.caches cmd.topic)) with
    | none => none
    | some q2 =>
        some ({ subscribe_register sid cmd.topic s with
                  caches := Function.update s.caches cmd.topic q2 },
              (sid, Out.success) ::
                (send_cached_replay (effLastSeen cmd.last_seen) (s.caches cmd.topic)).map
                  (fun m => (sid, Out.deliver m)))
  else
    some (subscribe_register sid cmd.topic s, [(sid, Out.success)])

/-- Session::handle_unsubscribe:
`topics[topic].erase(self); topics_rev[self].erase(topic)`, then success. -/
def handle_unsubscribe (sid : Nat) (topic : String) (s : BrokerState) :
    BrokerState × Outs :=
  ({ s with
       topics := Function.update s.topics topic ((s.topics topic).erase sid),
       topics_rev := Function.update s.topics_rev sid ((s.topics_rev sid).erase topic) },
   [(sid, Out.success)])

/-- Recipient selection of handle_send, and the resulting `do_cache` flag:
`delivery == "all"` takes every subscriber; otherwise, when the subscriber
set is non-empty, the `pick`-th subscriber in `std::set` order is chosen
and `do_cache` is forced to `false`.  When the set is empty nothing
happens and `do_cache` keeps its incoming value. -/
def send_recipients (subs : Finset Nat) (delivery : String) (pick : Nat)
    (do_cache : Bool) : Finset Nat × Bool :=
  if delivery = "all" then (subs, do_cache)
  else if subs = ∅ then (∅, do_cache)
  else ({(subs.sort (· ≤ ·)).getD pick 0}, false)

/-- Session::handle_send: stamp `index = indexs[topic]++`, select the
recipients, append to the cache when `do_cache` survived, trim, then write
the annotated message to each recipient and a success reply to the
publisher.  `none` models the undefined behaviour of `trim_cache`. -/
def handle_send (cs : Int) (sid : Nat) (cmd : SendCmd) (pick : Nat) (s : BrokerState) :
    Option (BrokerState × Outs) :=
  match (if (send_recipients (s.topics cmd.topic) cmd.delivery pick (cmd.cache.getD true)).2 then
           trim_cache cs (s.caches cmd.topic ++ [cmd.annotate (s.indexs cmd.topic)])
         else some (s.caches cmd.topic)) with
  | none => none
  | some q2 =>
      some ({ s with
                indexs := Function.update s.indexs cmd.topic (s.indexs cmd.topic + 1),
                caches := Function.update s.caches cmd.topic q2 },
            ((send_recipients (s.topics cmd.topic) cmd.delivery pick
                (cmd.cache.getD true)).1.sort (· ≤ ·)).map
                (fun r => (r, Out.deliver (cmd.annotate (s.indexs cmd.topic)))) ++
              [(sid, Out.success)])

/-- Session::cleanup: remove the session from the forward set of every
topic in its reverse set, then drop its reverse entry. -/
def cleanup (sid : Nat) (s : BrokerState) : BrokerState :=
  { s with
      topics := fun T => if T ∈ s.topics_rev sid then (s.topics T).erase sid else s.topics T,
      topics_rev := Function.update s.topics_rev sid ∅ }

/-- One processed broker command, as recorded in a trace.  A `send` event
records the `pick` offset drawn for "one" delivery and the index the
broker assigned. -/
inductive Event where
  | subscribe (sid : Nat) (cmd : SubscribeCmd)
  | unsubscribe (sid : Nat) (topic : String)
  | send (sid : Nat) (cmd : SendCmd) (pick : Nat) (idx : Int)
  | disconnect (sid : Nat)

/-- Reachability of a broker state under a trace of processed commands,
for a configured cache capacity `cs`.  Commands arrive codec-validated,
so a `send` carries `delivery` `"all"` or `"one"`; the random offset
`pick` is below the subscriber count whenever it is drawn. -/
inductive Reach (cs : Int) : BrokerState → List Event → Prop
  | init : Reach cs initState []
  | subscribe {s tr sid cmd s' outs} :
      Reach cs s tr →
      handle_subscribe cs sid cmd s = some (s', outs) →
      Reach cs s' (tr ++ [Event.subscribe sid cmd])
  | unsubscribe {s tr sid topic} :
      Reach cs s tr →
      Reach cs (handle_unsubscribe sid topic s).1 (tr ++ [Event.unsubscribe sid topic])
  | send {s tr sid cmd pick idx s' outs} :
      Reach cs s tr →
      idx = s.indexs cmd.topic →
      cmd.delivery = "all" ∨ cmd.delivery = "one" →
      (cmd.delivery = "one" → (s.topics cmd.topic).Nonempty →
        pick < (s.topics cmd.topic).card) →
      handle_send cs sid cmd pick s = some (s', outs) →
      Reach cs s' (tr ++ [Event.send sid cmd pick idx])
  | disconnect {s tr sid} :
      Reach cs s tr →
      Reach cs (cleanup sid s) (tr ++ [Event.disconnect sid])

/-- The indices the broker assigned to the `send` commands addressed to
topic `T` in a trace, in processing order. -/
def sendIndices (tr : List Event) (T : String) : List Int :=
  tr.filterMap fun e =>
    match e with
    | Event.send _ c _ idx => if c.topic = T then some idx else none
    | _ => none

/-! ### Protocol codec (boost::json values, schema validation, do_read) -/

/-- The `boost::json::kind` discriminator. -/
inductive JKind where
  | null
  | bool_
  | int64
  | uint64
  | double_
  | string
  | array
  | object
deriving DecidableEq

/-- A parsed `boost::json::value`.  Numbers parse to `int64`, `uint64`
or `double_` by magnitude; the floating payload of `double_` is not
modelled (no schema admits kind `double_` and no allowed literal is a
double, so only its kind is ever inspected). -/
inductive JVal where
  | null
  | bool_ (b : Bool)
  | int64 (n : Int)
  | uint64 (n : Nat)
  | double_
  | str (s : String)
  | arr (xs : List JVal)
  | obj (fields : List (String × JVal))

/-- Deep equality of `boost::json::value` (`operator==`), used by the
`std::find` over a schema row's allowed literals. -/
def jeqv (a b : JVal) : Bool :=
  match a, b with
  | JVal.null, JVal.null => true
  | JVal.bool_ a, JVal.bool_ b => a == b
  | JVal.int64 a, JVal.int64 b => a == b
  | JVal.uint64 a, JVal.uint64 b => a == b
  | JVal.double_, JVal.double_ => true
  | JVal.str a, JVal.str b => a == b
  | JVal.arr [], JVal.arr [] => true
  | JVal.arr (x :: xs), JVal.arr (y :: ys) => jeqv x y && jeqv (JVal.arr xs) (JVal.arr ys)
  | JVal.obj [], JVal.obj [] => true
  | JVal.obj ((k1, v1) :: fs), JVal.obj ((k2, v2) :: gs) =>
      k1 == k2 && jeqv v1 v2 && jeqv (JVal.obj fs) (JVal.obj gs)
  | _, _ => false
termination_by sizeOf a
decreasing_by all_goals (simp_wf; try omega)

instance : BEq JVal := ⟨jeqv⟩

/-- The `kind()` of a `boost::json::value`. -/
def kindOf : JVal → JKind
  | JVal.null => JKind.null
  | JVal.bool_ _ => JKind.bool_
  | JVal.int64 _ => JKind.int64
  | JVal.uint64 _ => JKind.uint64
  | JVal.double_ => JKind.double_
  | JVal.str _ => JKind.string
  | JVal.arr _ => JKind.array
  | JVal.obj _ => JKind.object

/-- A row of a command schema: expected kind, required flag, and the
allowed literal values (empty list means unrestricted). -/
structure FieldSpec where
  kind : JKind
  required : Bool
  values : List JVal

/-- The `subscribe` schema. -/
def template_subscribe : List (String × FieldSpec) :=
  [("command", ⟨JKind.string, true, []⟩),
   ("topic", ⟨JKind.string, true, []⟩),
   ("last_seen", ⟨JKind.int64, false, []⟩),
   ("cache", ⟨JKind.bool_, false, []⟩)]

/-- The `unsubscribe` schema. -/
def template_unsubscribe : List (String × FieldSpec) :=
  [("command", ⟨JKind.string, true, []⟩),
   ("topic", ⟨JKind.string, true, []⟩)]

/-- The `send` schema. -/
def template_send : List (String × FieldSpec) :=
  [("command", ⟨JKind.string, true, []⟩),
   ("topic", ⟨JKind.string, true, []⟩),
   ("msg", ⟨JKind.string, true, []⟩),
   ("delivery", ⟨JKind.string, true, [JVal.str "all", JVal.str "one"]⟩),
   ("cache", ⟨JKind.bool_, false, []⟩)]

/-- template_match: every key of the object occurs in the template; every
required field is present; every present field has the expected kind and,
when the template restricts the literals, an allowed value. -/
def template_match (t : List (String × FieldSpec)) (o : List (String × JVal)) : Bool :=
  o.all (fun kv => (t.lookup kv.1).isSome) &&
  t.all (fun ks =>
    match o.lookup ks.1 with
    | none => !ks.2.required
    | some v =>
        kindOf v == ks.2.kind &&
        (ks.2.values.isEmpty || ks.2.values.contains v))

/-- verify_command: require a string `command` field naming one of the
three commands, then match the corresponding schema. -/
def verify_command (o : List (String × JVal)) : Bool :=
  match o.lookup "command" with
  | some (JVal.str cmd) =>
      if cmd = "subscribe" then template_match template_subscribe o
      else if cmd = "unsubscribe" then template_match template_unsubscribe o
      else if cmd = "send" then template_match template_send o
      else false
  | _ => false

/-- What Session::do_read does with one complete record (CR already
stripped by the framing code). -/
inductive LineOutcome where
  | closeSession
  | ignore
  | failure (reason : String)
  | execute (o : List (String × JVal))

/-- Whether the session keeps reading after this record: every outcome of
do_read except `cleanup()` chains into another `do_read()`. -/
def session_continues : LineOutcome → Bool
  | LineOutcome.closeSession => false
  | _ => true

/-- The decode stages of Session::do_read for a non-empty, non-quit
record: UTF-8 validation, JSON parsing, then object and schema
validation.  The two boost library calls are abstract parameters:
`utf8Ok` is the success of `boost::locale::conv::utf_to_utf` inside
valid_utf8, and `parseJson` is `boost::json::parse` (`none` meaning a
parse error). -/
def decode_record (utf8Ok : String → Bool) (parseJson : String → Option JVal)
    (line : String) : LineOutcome :=
  if !utf8Ok line then LineOutcome.failure "Could not decode input as UTF-8"
  else
    match parseJson line with
    | none => LineOutcome.failure "Could not parse json"
    | some v =>
        match v with
        | JVal.obj o =>
            if verify_command o then LineOutcome.execute o
            else LineOutcome.failure "Malformed json message"
        | _ => LineOutcome.failure "Malformed json message"

/-- The per-record pipeline of Session::do_read: the quit and
empty-record checks, then the decode stages. -/
def do_read_line (utf8Ok : String → Bool) (parseJson : String → Option JVal)
    (line : String) : LineOutcome :=
  if line = "quit" then LineOutcome.closeSession
  else if line = "" then LineOutcome.ignore
  else decode_record utf8Ok parseJson line

/-! ### Command line handling (main) -/

/-- The outcome of a call to `std::stoi`. -/
inductive StoiResult where
  | ok (v : Int)
  | invalid_argument
  | out_of_range

/-- The C locale `isspace` set used by `std::stoi` via `strtol`. -/
def isCppSpace (c : Char) : Bool :=
  c = ' ' || c = '\t' || c = '\n' || c = '\x0b' || c = '\x0c' || c = '\r'

/-- std::stoi, base 10: skip leading whitespace, take an optional sign and
a maximal digit run (trailing characters are ignored); no digits throws
`std::invalid_argument`; a value outside the 32-bit `int` range throws
`std::out_of_range`. -/
def stoi (s : String) : StoiResult :=
  match s.data.dropWhile isCppSpace with
  | '-' :: t => stoiDigits true t
  | '+' :: t => stoiDigits false t
  | t => stoiDigits false t
where
  stoiDigits (neg : Bool) (cs : List Char) : StoiResult :=
    match cs.takeWhile Char.isDigit with
    | [] => StoiResult.invalid_argument
    | ds =>
        let v0 : Int := ds.foldl (fun acc c => acc * 10 + ((c.toNat : Int) - ('0'.toNat : Int))) 0
        let v : Int := if neg then -v0 else v0
        if v < -(2 ^ 31) || v > 2 ^ 31 - 1 then StoiResult.out_of_range
        else StoiResult.ok v

/-- The observable outcome of `main`: print usage to stderr and return 1;
die on an uncaught `std::stoi` exception; or start the server with the
given port and cache capacity. -/
inductive MainOutcome where
  | usage_exit1
  | uncaught_exception
  | run (port : Int) (cacheSize : Int)

/-- The body of main after the argument-count check: `stoi` is applied
to `argv[1]` and `argv[2]` as present (`argv` includes the program name),
and a `stoi` throw propagates out of main uncaught. -/
def parse_args (argv : List String) : MainOutcome :=
  match (if argv.length ≥ 2 then stoi (argv.getD 1 "") else StoiResult.ok DEFAULT_PORT) with
  | StoiResult.ok port =>
      match (if argv.length = 3 then stoi (argv.getD 2 "") else StoiResult.ok DEFAULT_CACHE_SIZE) with
      | StoiResult.ok c => MainOutcome.run port c
      | _ => MainOutcome.uncaught_exception
  | _ => MainOutcome.uncaught_exception

/-- main: an argument count outside {1,2,3} (`argc` counts the program
name) prints the usage banner and returns 1; otherwise the arguments are
parsed and the server starts. -/
def cpp_main (argv : List String) : MainOutcome :=
  if argv.length ≠ 1 ∧ argv.length ≠ 2 ∧ argv.length ≠ 3 then
    MainOutcome.usage_exit1
  else parse_args argv

/-- The replay-cache invariant for one topic: entries are strictly
increasing in index and every cached index is below the next index. -/
def CacheInv (q : List Msg) (next : Int) : Prop :=
  q.Pairwise (fun a b => a.index < b.index) ∧ ∀ m ∈ q, m.index < next

/-- The NextIndex bookkeeping invariant for one topic, stated about the
list `xs` of indices assigned to its sends so far: the counter equals the
number of sends, and the assigned indices are exactly 0, 1, 2, ... in
processing order. -/
def IndexInv (xs : List Int) (next : Int) : Prop :=
  next = (xs.length : Int) ∧ xs = (List.range xs.length).map Int.ofNat

/-! ### Concrete commands, messages and states used to evaluate the
definitions at specific inputs -/

/-- A cache-on "all" send to topic t. -/
def cmdA : SendCmd := ⟨"t", "a", "all", none⟩

/-- A second cache-on "all" send to topic t. -/
def cmdB : SendCmd := ⟨"t", "b", "all", none⟩

/-- A cache-on "one" send to topic t. -/
def cmdOne : SendCmd := ⟨"t", "x", "one", none⟩

/-- The cached form of cmdA, index 0. -/
def m0 : Msg := ⟨"t", "a", "all", none, 0⟩

/-- The cached form of cmdB, index 1. -/
def m1 : Msg := ⟨"t", "b", "all", none, 1⟩

/-- A cached "one" message with index 1, for exercising the rebuild. -/
def mOne1 : Msg := ⟨"t", "c", "one", none, 1⟩

/-- The state after processing cmdA from the initial state. -/
def sendA1 : BrokerState :=
  { initState with
      indexs := Function.update initState.indexs "t" 1,
      caches := Function.update initState.caches "t" [m0] }

/-- The state after processing cmdA then cmdB from the initial state. -/
def sendA2 : BrokerState :=
  { sendA1 with
      indexs := Function.update sendA1.indexs "t" 2,
      caches := Function.update sendA1.caches "t" [m0, m1] }

/-- The trace producing sendA2. -/
def trA2 : List Event := [Event.send 0 cmdA 0 0, Event.send 0 cmdB 0 1]

/-- The state after processing cmdOne from the initial state: the "one"
message sits in the replay cache because the topic had no subscribers. -/
def oneState : BrokerState :=
  { initState with
      indexs := Function.update initState.indexs "t" 1,
      caches := Function.update initState.caches "t" [cmdOne.annotate 0] }

/-- A state in which session 7 subscribes to topic t. -/
def oneSubState : BrokerState :=
  { initState with topics := Function.update initState.topics "t" {7} }

/-- The state handle_send produces for cmdOne against oneSubState. -/
def c2state : BrokerState :=
  { oneSubState with
      indexs := Function.update oneSubState.indexs "t" 1,
      caches := Function.update oneSubState.caches "t" [] }

/-- The state handle_subscribe produces for session 1 subscribing to t
against sendA2 (any in-range last_seen: the rebuild keeps both "all"
messages and the cap is not hit). -/
def c10state : BrokerState :=
  { subscribe_register 1 "t" sendA2 with
      caches := Function.update sendA2.caches "t" [m0, m1] }

/-- The state cleanup produces after session 0 subscribed to t with
replay disabled and then disconnected. -/
def c7state : BrokerState := cleanup 0 (subscribe_register 0 "t" initState)

/-- Whether a `std::stoi` call threw. -/
def stoiThrows : StoiResult → Bool
  | StoiResult.ok _ => false
  | _ => true

/-! ### Helper lemmas -/

theorem trim_cache_of_nonneg (cs : Int) (h : 0 ≤ cs) :
    ∀ q : List Msg, trim_cache cs q = some (q.drop (q.length - cs.toNat)) := by
  have hcs : cs = (cs.toNat : Int) := (Int.toNat_of_nonneg h).symm
  intro q
  induction q with
  | nil => rw [trim_cache, if_neg (not_lt.mpr h), List.drop_nil]
  | cons m t ih =>
      rw [trim_cache]
      rcases lt_or_le cs (((m :: t).length : Int)) with hgt | hle
      · have hcn : cs.toNat ≤ t.length := by
          rw [hcs, List.length_cons, Nat.cast_lt] at hgt
          exact Nat.lt_succ_iff.mp hgt
        rw [if_pos hgt, ih, List.length_cons, Nat.sub_add_comm hcn,
            List.drop_succ_cons]
      · have hz : (m :: t).length - cs.toNat = 0 :=
          Nat.sub_eq_zero_of_le (by rw [hcs, Nat.cast_le] at hle; exact hle)
        rw [if_neg (not_lt.mpr hle), hz, List.drop_zero]

theorem trim_cache_of_neg (cs : Int) (h : cs < 0) :
    ∀ q : List Msg, trim_cache cs q = none := by
  intro q
  induction q with
  | nil => simp [trim_cache]; omega
  | cons m t ih =>
      have hgt : (((m :: t).length : Int)) > cs := by
        have : (0 : Int) ≤ ((m :: t).length : Int) := Int.natCast_nonneg _
        omega
      simp only [trim_cache, if_pos hgt, ih]

theorem trim_cache_sublist {cs : Int} {q r : List Msg}
    (h : trim_cache cs q = some r) : r.Sublist q := by
  induction q with
  | nil =>
      simp only [trim_cache] at h
      split at h
      · exact absurd h (by simp)
      · cases h; exact List.Sublist.refl _
  | cons m t ih =>
      simp only [trim_cache] at h
      split at h
      · exact (ih h).cons m
      · cases h; exact List.Sublist.refl _

/-- Dropping all but the last c entries leaves min(size, c) entries. -/
theorem drop_length_min (q : List Msg) (c : Nat) :
    (q.drop (q.length - c)).length = min q.length c := by
  rw [List.length_drop]
  rcases Nat.le_total c q.length with h | h
  · rw [Nat.sub_sub_self h, Nat.min_eq_right h]
  · rw [Nat.sub_eq_zero_of_le h, Nat.sub_zero, Nat.min_eq_left h]

theorem send_recipients_all {subs : Finset Nat} {pick : Nat} {dc : Bool} :
    send_recipients subs "all" pick dc = (subs, dc) := by
  simp [send_recipients]

theorem send_recipients_one_empty {pick : Nat} {dc : Bool} :
    send_recipients ∅ "one" pick dc = (∅, dc) := by
  simp [send_recipients]

theorem send_recipients_one_nonempty {subs : Finset Nat} {pick : Nat} {dc : Bool}
    (h : subs ≠ ∅) :
    send_recipients subs "one" pick dc = ({(subs.sort (· ≤ ·)).getD pick 0}, false) := by
  simp [send_recipients, h]

theorem sort_getD_mem {subs : Finset Nat} {pick : Nat} (h : pick < subs.card) :
    (subs.sort (· ≤ ·)).getD pick 0 ∈ subs := by
  have hl : pick < (subs.sort (· ≤ ·)).length := by
    rwa [Finset.length_sort]
  rw [List.getD_eq_getElem _ _ hl]
  exact (Finset.mem_sort (· ≤ ·)).1 (List.getElem_mem hl)

/-- Case analysis of a successful handle_subscribe. -/
theorem handle_subscribe_cases {cs : Int} {sid : Nat} {cmd : SubscribeCmd}
    {s s' : BrokerState} {outs : Outs}
    (h : handle_subscribe cs sid cmd s = some (s', outs)) :
    s'.topics = Function.update s.topics cmd.topic (insert sid (s.topics cmd.topic)) ∧
    s'.topics_rev = Function.update s.topics_rev sid (insert cmd.topic (s.topics_rev sid)) ∧
    s'.indexs = s.indexs ∧
    ((cmd.cache.getD true = true ∧
      ∃ q2, trim_cache cs (send_cached_rebuild (effLastSeen cmd.last_seen)
              (s.caches cmd.topic)) = some q2 ∧
        s'.caches = Function.update s.caches cmd.topic q2 ∧
        outs = (sid, Out.success) ::
          (send_cached_replay (effLastSeen cmd.last_seen) (s.caches cmd.topic)).map
            (fun m => (sid, Out.deliver m))) ∨
     (cmd.cache.getD true = false ∧ s'.caches = s.caches ∧
      outs = [(sid, Out.success)])) := by
  unfold handle_subscribe at h
  split at h
  · rename_i hcache
    split at h
    · exact Option.noConfusion h
    · rename_i q2 hq2
      injection h with hp
      injection hp with h1 h2
      subst h1; subst h2
      exact ⟨rfl, rfl, rfl, Or.inl ⟨hcache, q2, hq2, rfl, rfl⟩⟩
  · rename_i hcache
    injection h with hp
    injection hp with h1 h2
    subst h1; subst h2
    exact ⟨rfl, rfl, rfl, Or.inr ⟨by simpa using hcache, rfl, rfl⟩⟩

/-- Case analysis of a successful handle_send. -/
theorem handle_send_cases {cs : Int} {sid : Nat} {cmd : SendCmd} {pick : Nat}
    {s s' : BrokerState} {outs : Outs}
    (h : handle_send cs sid cmd pick s = some (s', outs)) :
    s'.topics = s.topics ∧
    s'.topics_rev = s.topics_rev ∧
    s'.indexs = Function.update s.indexs cmd.topic (s.indexs cmd.topic + 1) ∧
    ∃ q2,
      s'.caches = Function.update s.caches cmd.topic q2 ∧
      outs = ((send_recipients (s.topics cmd.topic) cmd.delivery pick
                (cmd.cache.getD true)).1.sort (· ≤ ·)).map
                (fun r => (r, Out.deliver (cmd.annotate (s.indexs cmd.topic)))) ++
              [(sid, Out.success)] ∧
      (((send_recipients (s.topics cmd.topic) cmd.delivery pick (cmd.cache.getD true)).2 = true ∧
        trim_cache cs (s.caches cmd.topic ++ [cmd.annotate (s.indexs cmd.topic)]) = some q2) ∨
       ((send_recipients (s.topics cmd.topic) cmd.delivery pick (cmd.cache.getD true)).2 = false ∧
        q2 = s.caches cmd.topic)) := by
  unfold handle_send at h
  split at h
  · exact Option.noConfusion h
  · rename_i q2 hq2
    injection h with hp
    injection hp with h1 h2
    subst h1; subst h2
    by_cases hb : (send_recipients (s.topics cmd.topic) cmd.delivery pick (cmd.cache.getD true)).2 = true
    · rw [if_pos hb] at hq2
      exact ⟨rfl, rfl, rfl, q2, rfl, rfl, Or.inl ⟨hb, hq2⟩⟩
    · rw [if_neg hb] at hq2
      injection hq2 with hq
      exact ⟨rfl, rfl, rfl, q2, rfl, rfl, Or.inr ⟨by simpa using hb, hq.symm⟩⟩

/-- Membership after inserting one pair into a set-valued map. -/
theorem mem_update_insert_iff {α β : Type} [DecidableEq α] [DecidableEq β]
    (f : α → Finset β) (a : α) (x : β) (T : α) (S : β) :
    S ∈ Function.update f a (insert x (f a)) T ↔ S ∈ f T ∨ (T = a ∧ S = x) := by
  rcases eq_or_ne T a with rfl | hT
  · rw [Function.update_same, Finset.mem_insert]
    constructor
    · rintro (rfl | hS)
      · exact Or.inr ⟨rfl, rfl⟩
      · exact Or.inl hS
    · rintro (hS | ⟨-, rfl⟩)
      · exact Or.inr hS
      · exact Or.inl rfl
  · rw [Function.update_noteq hT]
    exact ⟨Or.inl, fun h => h.elim id (fun h2 => absurd h2.1 hT)⟩

/-- Membership after erasing one pair from a set-valued map. -/
theorem mem_update_erase_iff {α β : Type} [DecidableEq α] [DecidableEq β]
    (f : α → Finset β) (a : α) (x : β) (T : α) (S : β) :
    S ∈ Function.update f a ((f a).erase x) T ↔ S ∈ f T ∧ ¬(T = a ∧ S = x) := by
  rcases eq_or_ne T a with rfl | hT
  · rw [Function.update_same, Finset.mem_erase]
    constructor
    · rintro ⟨hne, hmem⟩
      exact ⟨hmem, fun h2 => hne h2.2⟩
    · rintro ⟨hmem, hn⟩
      exact ⟨fun hS => hn ⟨rfl, hS⟩, hmem⟩
  · rw [Function.update_noteq hT]
    exact ⟨fun h => ⟨h, fun h2 => hT h2.1⟩, And.left⟩

/-- The two-way registry invariant holds in every reachable state. -/
theorem reach_subs_iff {cs : Int} {s : BrokerState} {tr : List Event}
    (h : Reach cs s tr) : ∀ T S, S ∈ s.topics T ↔ T ∈ s.topics_rev S := by
  induction h with
  | init => intro T S; exact iff_of_false (Finset.not_mem_empty S) (Finset.not_mem_empty T)
  | @subscribe s0 tr0 sid cmd s' outs hr hs ih =>
      obtain ⟨ht, hrev, -, -⟩ := handle_subscribe_cases hs
      intro T S
      rw [ht, hrev, mem_update_insert_iff, mem_update_insert_iff, ih T S]
      exact or_congr Iff.rfl and_comm
  | @unsubscribe s0 tr0 sid topic hr ih =>
      intro T S
      show S ∈ Function.update s0.topics topic ((s0.topics topic).erase sid) T ↔
        T ∈ Function.update s0.topics_rev sid ((s0.topics_rev sid).erase topic) S
      rw [mem_update_erase_iff, mem_update_erase_iff, ih T S]
      exact and_congr Iff.rfl (not_congr and_comm)
  | @send s0 tr0 sid cmd pick idx s' outs hr hidx hval hpick hsend ih =>
      obtain ⟨ht, hrev, -, -⟩ := handle_send_cases hsend
      intro T S
      rw [ht, hrev]
      exact ih T S
  | @disconnect s0 tr0 sid hr ih =>
      intro T S
      show S ∈ (if T ∈ s0.topics_rev sid then (s0.topics T).erase sid else s0.topics T) ↔
        T ∈ Function.update s0.topics_rev sid ∅ S
      rcases eq_or_ne S sid with rfl | hS
      · rw [Function.update_same]
        by_cases hT : T ∈ s0.topics_rev S
        · rw [if_pos hT]
          exact iff_of_false (Finset.not_mem_erase _ _) (Finset.not_mem_empty T)
        · rw [if_neg hT]
          exact iff_of_false (fun hm => hT ((ih T S).1 hm)) (Finset.not_mem_empty T)
      · rw [Function.update_noteq hS]
        by_cases hT : T ∈ s0.topics_rev sid
        · rw [if_pos hT, Finset.mem_erase]
          exact ⟨fun h2 => (ih T S).1 h2.2, fun h2 => ⟨hS, (ih T S).2 h2⟩⟩
        · rw [if_neg hT]
          exact ih T S

/-- In every reachable state, every replay cache is strictly increasing in
`index` and every cached index is below the topic's next index. -/
theorem reach_cache_inv {cs : Int} {s : BrokerState} {tr : List Event}
    (h : Reach cs s tr) :
    ∀ T, CacheInv (s.caches T) (s.indexs T) := by
  induction h with
  | init =>
      intro T
      exact ⟨List.Pairwise.nil, fun m hm => absurd hm (List.not_mem_nil m)⟩
  | @subscribe s0 tr0 sid cmd s' outs hr hs ih =>
      obtain ⟨-, -, hidx, hcc⟩ := handle_subscribe_cases hs
      intro T
      rw [hidx]
      rcases hcc with ⟨-, q2, htrim, hca, -⟩ | ⟨-, hca, -⟩
      · rw [hca]
        rcases eq_or_ne T cmd.topic with hT | hT
        · subst hT
          simp only [Function.update_same]
          have hsub : q2.Sublist (s0.caches cmd.topic) :=
            (trim_cache_sublist htrim).trans (List.filter_sublist _)
          exact ⟨(ih cmd.topic).1.sublist hsub,
                 fun m hm => (ih cmd.topic).2 m (hsub.subset hm)⟩
        · simp only [Function.update_apply, if_neg hT]
          exact ih T
      · rw [hca]; exact ih T
  | @unsubscribe s0 tr0 sid topic hr ih =>
      intro T
      simp only [handle_unsubscribe]
      exact ih T
  | @send s0 tr0 sid cmd pick idx s' outs hr hidx hval hpick hsend ih =>
      obtain ⟨-, -, hidxs, q2, hca, -, hq2⟩ := handle_send_cases hsend
      intro T
      rw [hidxs, hca]
      rcases eq_or_ne T cmd.topic with hT | hT
      · subst hT
        simp only [Function.update_same]
        rcases hq2 with ⟨-, htrim⟩ | ⟨-, hq2'⟩
        · have hpw : (s0.caches cmd.topic ++
              [cmd.annotate (s0.indexs cmd.topic)]).Pairwise
                (fun a b => a.index < b.index) := by
            rw [List.pairwise_append]
            refine ⟨(ih cmd.topic).1, by simp, ?_⟩
            intro a ha b hb
            simp only [List.mem_singleton] at hb
            subst hb
            exact (ih cmd.topic).2 a ha
          have hsub := trim_cache_sublist htrim
          refine ⟨hpw.sublist hsub, ?_⟩
          intro m hm
          have hm' := hsub.subset hm
          rw [List.mem_append, List.mem_singleton] at hm'
          rcases hm' with hmem | rfl
          · exact lt_trans ((ih cmd.topic).2 m hmem) (lt_add_one _)
          · exact lt_add_one _
        · subst hq2'
          refine ⟨(ih cmd.topic).1, ?_⟩
          intro m hm
          exact lt_trans ((ih cmd.topic).2 m hm) (lt_add_one _)
      · simp only [Function.update_apply, if_neg hT]
        exact ih T
  | @disconnect s0 tr0 sid hr ih =>
      intro T
      simp only [cleanup]
      exact ih T

theorem sendIndices_append (tr tr' : List Event) (T : String) :
    sendIndices (tr ++ tr') T = sendIndices tr T ++ sendIndices tr' T :=
  List.filterMap_append ..

/-- NextIndex bookkeeping: in every reachable state the next index of a
topic is the number of sends to it so far, and the assigned indices are
exactly 0, 1, 2, ... in processing order. -/
theorem reach_index_count {cs : Int} {s : BrokerState} {tr : List Event}
    (h : Reach cs s tr) :
    ∀ T, IndexInv (sendIndices tr T) (s.indexs T) := by
  induction h with
  | init => intro T; exact ⟨rfl, rfl⟩
  | @subscribe s0 tr0 sid cmd s' outs hr hs ih =>
      obtain ⟨-, -, hidx, -⟩ := handle_subscribe_cases hs
      intro T
      rw [hidx, sendIndices_append]
      simpa [sendIndices] using ih T
  | @unsubscribe s0 tr0 sid topic hr ih =>
      intro T
      rw [sendIndices_append]
      simp only [handle_unsubscribe]
      simpa [sendIndices] using ih T
  | @send s0 tr0 sid cmd pick idx s' outs hr hidx hval hpick hsend ih =>
      obtain ⟨-, -, hidxs, -, -, -, -⟩ := handle_send_cases hsend
      intro T
      rw [hidxs, sendIndices_append]
      rcases eq_or_ne cmd.topic T with hT | hT
      · have hone : sendIndices [Event.send sid cmd pick idx] T = [idx] := by
          simp [sendIndices, hT]
        rw [hone]
        subst hT
        rw [Function.update_same]
        obtain ⟨ih1, ih2⟩ := ih cmd.topic
        refine ⟨?_, ?_⟩
        · rw [List.length_append, List.length_singleton, ih1, Nat.cast_add_one]
        · rw [List.length_append, List.length_singleton, List.range_succ,
              List.map_append]
          refine congrArg₂ _ ih2 ?_
          simp only [List.map_singleton, List.singleton_inj]
          rw [hidx, ih1]
          rfl
      · have hnone : sendIndices [Event.send sid cmd pick idx] T = [] := by
          simp [sendIndices, hT]
        rw [hnone, List.append_nil, Function.update_apply, if_neg (Ne.symm hT)]
        exact ih T
  | @disconnect s0 tr0 sid hr ih =>
      intro T
      rw [sendIndices_append]
      simp only [cleanup]
      simpa [sendIndices] using ih T

/-- A state reached by a trace ending in a disconnect is the cleanup of a
state reachable by the rest of the trace. -/
theorem reach_disconnect_inv {cs : Int} {s : BrokerState} {tr0 : List Event} {sid : Nat}
    (h : Reach cs s (tr0 ++ [Event.disconnect sid])) :
    ∃ s0, Reach cs s0 tr0 ∧ s = cleanup sid s0 := by
  generalize htr : tr0 ++ [Event.disconnect sid] = tr at h
  cases h with
  | init => exact absurd htr (by simp)
  | @subscribe s1 tr1 sid1 cmd s' outs hr hs =>
      obtain ⟨-, h2⟩ := List.append_inj' htr rfl
      injection h2 with h3 h4
      exact Event.noConfusion h3
  | @unsubscribe s1 tr1 sid1 topic hr =>
      obtain ⟨-, h2⟩ := List.append_inj' htr rfl
      injection h2 with h3 h4
      exact Event.noConfusion h3
  | @send s1 tr1 sid1 cmd pick idx s' outs hr hidx hval hpick hsend =>
      obtain ⟨-, h2⟩ := List.append_inj' htr rfl
      injection h2 with h3 h4
      exact Event.noConfusion h3
  | @disconnect s1 tr1 sid1 hr =>
      obtain ⟨h1, h2⟩ := List.append_inj' htr rfl
      injection h2 with h3 h4
      injection h3 with h5
      subst h5
      subst h1
      exact ⟨s1, hr, rfl⟩

/-- static_cast of an in-range int64 to int is the identity. -/
theorem toInt32_eq_self {k : Int} (h1 : -(2 ^ 31) ≤ k) (h2 : k < 2 ^ 31) :
    toInt32 k = k := by
  unfold toInt32
  rw [Int.emod_eq_of_lt (by omega) (by omega)]
  omega

/-- When the client-supplied last_seen is within the int range (or
absent, giving the default -1), the effective last_seen is the supplied
value itself. -/
theorem effLastSeen_eq {cmd : SubscribeCmd} {k : Int}
    (hk : cmd.last_seen.getD (-1) = k) (h1 : -(2 ^ 31) ≤ k) (h2 : k < 2 ^ 31) :
    effLastSeen cmd.last_seen = k := by
  cases hls : cmd.last_seen with
  | none =>
      rw [hls] at hk
      simp only [Option.getD_none] at hk
      rw [← hk]
      rfl
  | some v =>
      rw [hls] at hk
      simp only [Option.getD_some] at hk
      subst hk
      exact toInt32_eq_self h1 h2

/-- The state after one cache-on "all" send to the empty broker. -/
theorem reach_sendA1 : Reach 100 sendA1 [Event.send 0 cmdA 0 0] :=
  Reach.send Reach.init rfl (Or.inl rfl)
    (fun h => absurd h (by decide)) rfl

/-- The state after two cache-on "all" sends to the empty broker. -/
theorem reach_sendA2 : Reach 100 sendA2 trA2 :=
  Reach.send reach_sendA1 rfl (Or.inl rfl)
    (fun h => absurd h (by decide)) rfl

/-- The state after one cache-on "one" send to the empty broker: since
the topic has no subscribers, the message lands in the replay cache. -/
theorem reach_oneState : Reach 100 oneState [Event.send 0 cmdOne 0 0] :=
  Reach.send Reach.init rfl (Or.inr rfl)
    (fun _ hne => absurd hne (by simp [initState])) rfl

/-- The state after session 0 subscribes to t (replay off) and
disconnects. -/
theorem reach_c7state :
    Reach 100 c7state [Event.subscribe 0 ⟨"t", none, some false⟩, Event.disconnect 0] := by
  have h1 : Reach 100 (subscribe_register 0 "t" initState)
      ([] ++ [Event.subscribe 0 ⟨"t", none, some false⟩]) :=
    Reach.subscribe Reach.init rfl
  exact Reach.disconnect h1

/-- Evaluation of the cache-on "one" send against the empty broker: no
recipients, but the message is cached. -/
theorem handle_send_one_empty_eval :
    handle_send 100 0 cmdOne 0 initState = some (oneState, [(0, Out.success)]) := by
  unfold handle_send
  rw [show send_recipients (initState.topics cmdOne.topic) cmdOne.delivery 0
        (cmdOne.cache.getD true) = (∅, true) from rfl]
  show some (_, (Finset.sort (· ≤ ·) (∅ : Finset Nat)).map _ ++ _) = _
  rw [Finset.sort_empty]
  rfl

/-- Evaluation of the cache-on "one" send against the broker whose only
subscriber of t is session 7: session 7 receives, nothing is cached. -/
theorem handle_send_one_sub_eval :
    handle_send 100 0 cmdOne 0 oneSubState =
      some (c2state, [(7, Out.deliver (cmdOne.annotate 0)), (0, Out.success)]) := by
  have h1 : send_recipients (oneSubState.topics cmdOne.topic) cmdOne.delivery 0
      (cmdOne.cache.getD true) = ({7}, false) := by
    rw [show oneSubState.topics cmdOne.topic = ({7} : Finset Nat) from rfl,
        show cmdOne.delivery = "one" from rfl,
        send_recipients_one_nonempty (by decide), Finset.sort_singleton]
    rfl
  unfold handle_send
  rw [h1]
  show some (_, (Finset.sort (· ≤ ·) ({7} : Finset Nat)).map _ ++ _) = _
  rw [Finset.sort_singleton]
  rfl

/-- For a non-empty, non-quit record, do_read runs the decode stages. -/
theorem do_read_line_nonempty (utf8Ok : String → Bool)
    (parseJson : String → Option JVal) (line : String)
    (h1 : line ≠ "quit") (h2 : line ≠ "") :
    do_read_line utf8Ok parseJson line = decode_record utf8Ok parseJson line := by
  unfold do_read_line
  rw [if_neg h1, if_neg h2]

/-- A record that decodes to a JSON object reaches schema validation. -/
theorem decode_record_obj (utf8Ok : String → Bool) (parseJson : String → Option JVal)
    (line : String) (o : List (String × JVal)) (hu : utf8Ok line = true)
    (hp : parseJson line = some (JVal.obj o)) :
    decode_record utf8Ok parseJson line =
      (if verify_command o then LineOutcome.execute o
       else LineOutcome.failure "Malformed json message") := by
  unfold decode_record
  rw [hu, hp]
  rfl

/-- A record that fails UTF-8 validation gets the first failure reason. -/
theorem decode_record_utf8_fail (utf8Ok : String → Bool)
    (parseJson : String → Option JVal) (line : String) (hu : utf8Ok line = false) :
    decode_record utf8Ok parseJson line =
      LineOutcome.failure "Could not decode input as UTF-8" := by
  unfold decode_record
  rw [hu]
  rfl

/-- A record that fails JSON parsing gets the second failure reason. -/
theorem decode_record_parse_fail (utf8Ok : String → Bool)
    (parseJson : String → Option JVal) (line : String) (hu : utf8Ok line = true)
    (hp : parseJson line = none) :
    decode_record utf8Ok parseJson line =
      LineOutcome.failure "Could not parse json" := by
  unfold decode_record
  rw [hu, hp]
  rfl

/-- A record that parses to a non-object value gets the third failure
reason. -/
theorem decode_record_not_obj (utf8Ok : String → Bool)
    (parseJson : String → Option JVal) (line : String) (v : JVal)
    (hu : utf8Ok line = true) (hp : parseJson line = some v)
    (hv : ∀ o, v ≠ JVal.obj o) :
    decode_record utf8Ok parseJson line =
      LineOutcome.failure "Malformed json message" := by
  unfold decode_record
  rw [hu, hp]
  cases v with
  | obj o => exact absurd rfl (hv o)
  | null => rfl
  | bool_ b => rfl
  | int64 n => rfl
  | uint64 n => rfl
  | double_ => rfl
  | str s => rfl
  | arr xs => rfl

/-- Every decoded record yields one of the three fixed failure reasons
or a schema-validated command object. -/
theorem decode_record_shape (utf8Ok : String → Bool)
    (parseJson : String → Option JVal) (line : String) :
    decode_record utf8Ok parseJson line =
        LineOutcome.failure "Could not decode input as UTF-8" ∨
    decode_record utf8Ok parseJson line =
        LineOutcome.failure "Could not parse json" ∨
    decode_record utf8Ok parseJson line =
        LineOutcome.failure "Malformed json message" ∨
    ∃ o, decode_record utf8Ok parseJson line = LineOutcome.execute o := by
  cases hu : utf8Ok line with
  | false => exact Or.inl (decode_record_utf8_fail utf8Ok parseJson line hu)
  | true =>
      cases hp : parseJson line with
      | none =>
          exact Or.inr (Or.inl (decode_record_parse_fail utf8Ok parseJson line hu hp))
      | some v =>
          cases v with
          | obj o =>
              rw [decode_record_obj utf8Ok parseJson line o hu hp]
              cases hvo : verify_command o with
              | false => exact Or.inr (Or.inr (Or.inl rfl))
              | true => exact Or.inr (Or.inr (Or.inr ⟨o, rfl⟩))
          | null =>
              exact Or.inr (Or.inr (Or.inl (decode_record_not_obj utf8Ok parseJson
                line _ hu hp (fun o h => nomatch h))))
          | bool_ b =>
              exact Or.inr (Or.inr (Or.inl (decode_record_not_obj utf8Ok parseJson
                line _ hu hp (fun o h => nomatch h))))
          | int64 n =>
              exact Or.inr (Or.inr (Or.inl (decode_record_not_obj utf8Ok parseJson
                line _ hu hp (fun o h => nomatch h))))
          | uint64 n =>
              exact Or.inr (Or.inr (Or.inl (decode_record_not_obj utf8Ok parseJson
                line _ hu hp (fun o h => nomatch h))))
          | double_ =>
              exact Or.inr (Or.inr (Or.inl (decode_record_not_obj utf8Ok parseJson
                line _ hu hp (fun o h => nomatch h))))
          | str s =>
              exact Or.inr (Or.inr (Or.inl (decode_record_not_obj utf8Ok parseJson
                line _ hu hp (fun o h => nomatch h))))
          | arr xs =>
              exact Or.inr (Or.inr (Or.inl (decode_record_not_obj utf8Ok parseJson
                line _ hu hp (fun o h => nomatch h))))

/-- Evaluation: subscribing to t with last_seen 0 against the
two-message cache replays the message with index 1 after the success
reply and leaves the cache as it was. -/
theorem handle_subscribe_zero_eval :
    handle_subscribe 100 1 ⟨"t", some 0, none⟩ sendA2 =
      some (c10state, [(1, Out.success), (1, Out.deliver m1)]) := rfl

/-- Evaluation: subscribing with last_seen 2^32 behaves exactly like
last_seen 0 because of the static_cast narrowing. -/
theorem handle_subscribe_big_eval :
    handle_subscribe 100 1 ⟨"t", some (2 ^ 32), none⟩ sendA2 =
      some (c10state, [(1, Out.success), (1, Out.deliver m1)]) := rfl

/-! ### Claim theorems -/

/-- C1, counterexample: the claim that every cached message of every
reachable state has delivery "all" is false — the broker state reached by
a single cache-on send with delivery "one" to a topic with no subscribers
has that "one" message in the topic's replay cache (`do_cache` is forced
off only inside the non-empty-subscribers branch). -/
theorem c1_cached_all_cex :
    ¬ (∀ (s : BrokerState) (tr : List Event), Reach 100 s tr →
        ∀ T, ∀ m ∈ s.caches T, m.delivery = "all") := by
  intro hclaim
  have h := hclaim oneState [Event.send 0 cmdOne 0 0] reach_oneState "t"
      (cmdOne.annotate 0) (List.mem_singleton_self _)
  exact absurd h (by decide)

/-- C1, amended: in handle_send with delivery "one", caching is forced
off only when a recipient is actually selected (non-empty subscriber
set); when the subscriber set is empty the cache flag is untouched, so
with cache absent or true the "one"-delivery message (still carrying
delivery "one") is appended to the topic's replay cache, and with
cache false the cache is unchanged. -/
theorem c1_cached_all_amended {cs : Int} {sid : Nat} {cmd : SendCmd} {pick : Nat}
    {s s' : BrokerState} {outs : Outs}
    (hd : cmd.delivery = "one")
    (h : handle_send cs sid cmd pick s = some (s', outs)) :
    (s.topics cmd.topic ≠ ∅ → s'.caches cmd.topic = s.caches cmd.topic) ∧
    (s.topics cmd.topic = ∅ → cmd.cache.getD true = true →
      trim_cache cs (s.caches cmd.topic ++ [cmd.annotate (s.indexs cmd.topic)]) =
        some (s'.caches cmd.topic) ∧
      (cmd.annotate (s.indexs cmd.topic)).delivery = "one") ∧
    (s.topics cmd.topic = ∅ → cmd.cache.getD true = false →
      s'.caches cmd.topic = s.caches cmd.topic) := by
  obtain ⟨-, -, -, q2, hca, -, hq2⟩ := handle_send_cases h
  refine ⟨?_, ?_, ?_⟩
  · intro hne
    rcases hq2 with ⟨hb, -⟩ | ⟨-, hq⟩
    · rw [hd, send_recipients_one_nonempty hne] at hb
      simp at hb
    · subst hq
      rw [hca, Function.update_same]
  · intro he hcache
    rcases hq2 with ⟨-, htrim⟩ | ⟨hb, -⟩
    · rw [hca, Function.update_same]
      exact ⟨htrim, by simp [SendCmd.annotate, hd]⟩
    · rw [hd, he, send_recipients_one_empty, hcache] at hb
      simp at hb
  · intro he hfalse
    rcases hq2 with ⟨hb, -⟩ | ⟨-, hq⟩
    · rw [hd, he, send_recipients_one_empty, hfalse] at hb
      simp at hb
    · subst hq
      rw [hca, Function.update_same]

/-- C1, witness: the amended theorem applied to the cache-on "one" send
to the empty broker: the "one" message is appended to the cache. -/
theorem c1_cached_all_amended_witness :
    cmdOne.delivery = "one" ∧
    initState.topics cmdOne.topic = ∅ ∧
    (trim_cache 100
        (initState.caches cmdOne.topic ++ [cmdOne.annotate (initState.indexs cmdOne.topic)]) =
      some (oneState.caches cmdOne.topic) ∧
     (cmdOne.annotate (initState.indexs cmdOne.topic)).delivery = "one") :=
  ⟨rfl, rfl,
   (c1_cached_all_amended rfl handle_send_one_empty_eval).2.1 rfl rfl⟩

/-- C2: a send with delivery "one" always advances the topic's next
index; with no subscribers nothing is delivered (the message is dropped)
and the publisher alone gets a success reply; with subscribers exactly
one session, a member of the subscriber set, receives the message before
the publisher's success reply. -/
theorem c2_delivery_one {cs : Int} {sid : Nat} {cmd : SendCmd} {pick : Nat}
    {s s' : BrokerState} {outs : Outs}
    (hd : cmd.delivery = "one")
    (h : handle_send cs sid cmd pick s = some (s', outs))
    (hp : s.topics cmd.topic ≠ ∅ → pick < (s.topics cmd.topic).card) :
    s'.indexs cmd.topic = s.indexs cmd.topic + 1 ∧
    (s.topics cmd.topic = ∅ → outs = [(sid, Out.success)]) ∧
    (s.topics cmd.topic ≠ ∅ →
      ∃ r ∈ s.topics cmd.topic,
        outs = [(r, Out.deliver (cmd.annotate (s.indexs cmd.topic))), (sid, Out.success)]) := by
  obtain ⟨-, -, hidxs, q2, -, houts, -⟩ := handle_send_cases h
  refine ⟨by rw [hidxs, Function.update_same], ?_, ?_⟩
  · intro he
    rw [houts, hd, he, send_recipients_one_empty]
    simp
  · intro hne
    rw [houts, hd, send_recipients_one_nonempty hne]
    refine ⟨(Finset.sort (· ≤ ·) (s.topics cmd.topic)).getD pick 0,
            sort_getD_mem (hp hne), ?_⟩
    simp [Finset.sort_singleton]

/-- C2, witness: the theorem applied to a "one" send to a topic whose
only subscriber is session 7: session 7 receives the message and the
publisher (session 0) is acknowledged. -/
theorem c2_delivery_one_witness :
    cmdOne.delivery = "one" ∧
    (c2state.indexs cmdOne.topic = oneSubState.indexs cmdOne.topic + 1 ∧
     (oneSubState.topics cmdOne.topic = ∅ →
       ([(7, Out.deliver (cmdOne.annotate (oneSubState.indexs cmdOne.topic))),
         (0, Out.success)] : Outs) = [(0, Out.success)]) ∧
     (oneSubState.topics cmdOne.topic ≠ ∅ →
       ∃ r ∈ oneSubState.topics cmdOne.topic,
         ([(7, Out.deliver (cmdOne.annotate (oneSubState.indexs cmdOne.topic))),
           (0, Out.success)] : Outs) =
           [(r, Out.deliver (cmdOne.annotate (oneSubState.indexs cmdOne.topic))),
            (0, Out.success)])) :=
  ⟨rfl, c2_delivery_one rfl handle_send_one_sub_eval (fun _ => by decide)⟩

/-- C5: the catch-up-and-prune rebuild keeps exactly the cached messages
with index at most last_seen or delivery "all", preserves their relative
order (it is a sublist of the old cache), and the subsequent trim drops
entries only from the front until at most the configured (non-negative)
capacity remain. -/
theorem c5_rebuild_prune (cs last_seen : Int) (q : List Msg) (h : 0 ≤ cs) :
    (∀ m, m ∈ send_cached_rebuild last_seen q ↔
       m ∈ q ∧ (m.index ≤ last_seen ∨ m.delivery = "all")) ∧
    (send_cached_rebuild last_seen q).Sublist q ∧
    trim_cache cs (send_cached_rebuild last_seen q) =
      some ((send_cached_rebuild last_seen q).drop
        ((send_cached_rebuild last_seen q).length - cs.toNat)) ∧
    ((send_cached_rebuild last_seen q).drop
        ((send_cached_rebuild last_seen q).length - cs.toNat)).length =
      min (send_cached_rebuild last_seen q).length cs.toNat := by
  refine ⟨?_, List.filter_sublist _, trim_cache_of_nonneg cs h _,
          drop_length_min _ _⟩
  intro m
  simp [send_cached_rebuild, List.mem_filter, Bool.or_eq_true, decide_eq_true_eq]

/-- C5, witness: the theorem applied to a two-entry cache holding an
"all" message with index 0 and a "one" message with index 1, with
last_seen 0 and capacity 1: the rebuild keeps only the "all" message. -/
theorem c5_rebuild_prune_witness :
    (0 : Int) ≤ 1 ∧
    send_cached_rebuild 0 [m0, mOne1] = [m0] ∧
    (mOne1 ∈ send_cached_rebuild 0 [m0, mOne1] ↔
      mOne1 ∈ [m0, mOne1] ∧ (mOne1.index ≤ 0 ∨ mOne1.delivery = "all")) ∧
    trim_cache 1 (send_cached_rebuild 0 [m0, mOne1]) =
      some ((send_cached_rebuild 0 [m0, mOne1]).drop
        ((send_cached_rebuild 0 [m0, mOne1]).length - (1 : Int).toNat)) :=
  ⟨by decide, rfl, (c5_rebuild_prune 1 0 [m0, mOne1] (by decide)).1 mOne1,
   (c5_rebuild_prune 1 0 [m0, mOne1] (by decide)).2.2.1⟩

/-- C6: in every reachable state, NextIndex of a topic equals the number
of send commands to that topic processed so far, and the indices the
broker assigned to them are exactly 0, 1, 2, ... in processing order
(no gaps, no reuse) — a send advances the counter whether or not the
message was cached or delivered and in both delivery modes. -/
theorem c6_next_index {cs : Int} {s : BrokerState} {tr : List Event}
    (h : Reach cs s tr) (T : String) :
    s.indexs T = ((sendIndices tr T).length : Int) ∧
    sendIndices tr T = (List.range (sendIndices tr T).length).map Int.ofNat :=
  reach_index_count h T

/-- C6, witness: the theorem applied to the two-send trace: the counter
is 2 and the assigned indices are exactly [0, 1]. -/
theorem c6_next_index_witness :
    sendIndices trA2 "t" = [0, 1] ∧
    (sendA2.indexs "t" = ((sendIndices trA2 "t").length : Int) ∧
     sendIndices trA2 "t" = (List.range (sendIndices trA2 "t").length).map Int.ofNat) :=
  ⟨by decide, c6_next_index reach_sendA2 "t"⟩

/-- C7: in every reachable state a session is in a topic's forward
subscriber set exactly when the topic is in the session's reverse set,
and a state just reached by a disconnect cleanup has the disconnected
session in no forward set. -/
theorem c7_registry {cs : Int} {s : BrokerState} {tr : List Event}
    (h : Reach cs s tr) :
    (∀ T S, S ∈ s.topics T ↔ T ∈ s.topics_rev S) ∧
    (∀ sid tr0, tr = tr0 ++ [Event.disconnect sid] → ∀ T, sid ∉ s.topics T) := by
  refine ⟨reach_subs_iff h, ?_⟩
  intro sid tr0 htr T
  subst htr
  obtain ⟨s0, hr0, rfl⟩ := reach_disconnect_inv h
  simp only [cleanup]
  by_cases hT : T ∈ s0.topics_rev sid
  · simp [hT]
  · simp only [if_neg hT]
    intro hmem
    exact hT ((reach_subs_iff hr0 T sid).1 hmem)

/-- C7, witness: the theorem applied to the state reached by session 0
subscribing to topic t and then disconnecting: the two-way invariant
holds and session 0 is no longer in the forward set of t. -/
theorem c7_registry_witness :
    (0 ∈ c7state.topics "t" ↔ "t" ∈ c7state.topics_rev 0) ∧
    0 ∉ c7state.topics "t" :=
  ⟨(c7_registry reach_c7state).1 "t" 0,
   (c7_registry reach_c7state).2 0 [Event.subscribe 0 ⟨"t", none, some false⟩] rfl "t"⟩

/-- C3, counterexample: a non-numeric port argument does not take the
usage-and-exit-1 path; the std::stoi call throws std::invalid_argument
and the exception leaves main uncaught. -/
theorem c3_usage_cex :
    cpp_main ["aiomemq", "abc"] = MainOutcome.uncaught_exception ∧
    MainOutcome.uncaught_exception ≠ MainOutcome.usage_exit1 :=
  ⟨rfl, fun h => MainOutcome.noConfusion h⟩

/-- C3, amended: only an argument count outside {0, 1, 2} (counts exclude
the program name) reaches the usage message and exit status 1; a
non-parsable port or cache_size instead makes the corresponding stoi
call throw, and the exception propagates out of main uncaught. -/
theorem c3_usage_amended (argv : List String) :
    (¬ (argv.length = 1 ∨ argv.length = 2 ∨ argv.length = 3) →
      cpp_main argv = MainOutcome.usage_exit1) ∧
    ((argv.length = 2 ∨ argv.length = 3) →
      stoiThrows (stoi (argv.getD 1 "")) = true →
      cpp_main argv = MainOutcome.uncaught_exception) ∧
    (argv.length = 3 → ∀ p, stoi (argv.getD 1 "") = StoiResult.ok p →
      stoiThrows (stoi (argv.getD 2 "")) = true →
      cpp_main argv = MainOutcome.uncaught_exception) ∧
    (argv.length = 1 → cpp_main argv = MainOutcome.run DEFAULT_PORT DEFAULT_CACHE_SIZE) := by
  refine ⟨?_, ?_, ?_, ?_⟩
  · intro h
    rw [cpp_main, if_pos ⟨fun e => h (Or.inl e), fun e => h (Or.inr (Or.inl e)),
                          fun e => h (Or.inr (Or.inr e))⟩]
  · intro h2 hthrow
    rw [cpp_main, if_neg (fun hc => h2.elim hc.2.1 hc.2.2), parse_args,
        if_pos (by omega)]
    cases hs : stoi (argv.getD 1 "") with
    | ok v => rw [hs] at hthrow; simp [stoiThrows] at hthrow
    | invalid_argument => rfl
    | out_of_range => rfl
  · intro h3 p hp hthrow
    rw [cpp_main, if_neg (fun hc => hc.2.2 h3), parse_args, if_pos (by omega),
        hp, if_pos h3]
    cases hs : stoi (argv.getD 2 "") with
    | ok v => rw [hs] at hthrow; simp [stoiThrows] at hthrow
    | invalid_argument => rfl
    | out_of_range => rfl
  · intro h1
    rw [cpp_main, if_neg (fun hc => hc.1 h1), parse_args, if_neg (by omega),
        if_neg (by omega)]

/-- C3, witness: the amended theorem applied to a non-numeric port and to
four arguments. -/
theorem c3_usage_amended_witness :
    (stoiThrows (stoi (["aiomemq", "abc"].getD 1 "")) = true ∧
     cpp_main ["aiomemq", "abc"] = MainOutcome.uncaught_exception) ∧
    cpp_main ["aiomemq", "1", "2", "3"] = MainOutcome.usage_exit1 :=
  ⟨⟨by decide, (c3_usage_amended ["aiomemq", "abc"]).2.1 (Or.inl rfl) (by decide)⟩,
   (c3_usage_amended ["aiomemq", "1", "2", "3"]).1 (by decide)⟩

/-- C4, counterexample: the claim that every replayed message has index
greater than the supplied last_seen fails when last_seen is outside the
32-bit int range: subscribing with last_seen 2^32 against the reachable
two-message cache replays the message with index 1, and 1 is not greater
than 2^32 (the comparison uses the truncated value 0). -/
theorem c4_replay_cex :
    ¬ (∀ (cs : Int) (s : BrokerState) (tr : List Event) (sid : Nat)
         (cmd : SubscribeCmd) (s' : BrokerState) (outs : Outs),
        Reach cs s tr →
        handle_subscribe cs sid cmd s = some (s', outs) →
        cmd.cache ≠ some false →
        ∀ m, (sid, Out.deliver m) ∈ outs → m.index > cmd.last_seen.getD (-1)) := by
  intro hclaim
  have h := hclaim 100 sendA2 trA2 1 ⟨"t", some (2 ^ 32), none⟩ c10state
      [(1, Out.success), (1, Out.deliver m1)] reach_sendA2 handle_subscribe_big_eval
      (by decide) m1 (List.mem_cons_of_mem _ (List.mem_singleton_self _))
  exact absurd h (by decide)

/-- C4, amended: for a subscribe with cache absent or true whose
last_seen (defaulting to -1 when absent) lies within the 32-bit int
range, the output is the success reply followed by exactly the cached
messages with index above last_seen, in cache order; on a reachable
state that order is strictly increasing in index, so each qualifying
message is replayed exactly once. -/
theorem c4_replay_amended {cs : Int} {s : BrokerState} {tr : List Event}
    {sid : Nat} {cmd : SubscribeCmd} {s' : BrokerState} {outs : Outs} {k : Int}
    (hreach : Reach cs s tr)
    (h : handle_subscribe cs sid cmd s = some (s', outs))
    (hc : cmd.cache ≠ some false)
    (hk : cmd.last_seen.getD (-1) = k)
    (hlo : -(2 ^ 31) ≤ k) (hhi : k < 2 ^ 31) :
    outs = (sid, Out.success) ::
      (send_cached_replay k (s.caches cmd.topic)).map (fun m => (sid, Out.deliver m)) ∧
    (∀ m, (sid, Out.deliver m) ∈ outs → m.index > k) ∧
    (send_cached_replay k (s.caches cmd.topic)).Pairwise (fun a b => a.index < b.index) := by
  have heff := effLastSeen_eq hk hlo hhi
  have hcache : cmd.cache.getD true = true := by
    cases hcc : cmd.cache with
    | none => rfl
    | some b =>
        cases b with
        | false => exact absurd hcc hc
        | true => rfl
  obtain ⟨-, -, -, hcc⟩ := handle_subscribe_cases h
  rcases hcc with ⟨-, q2, -, -, houts⟩ | ⟨hfalse, -, -⟩
  · rw [heff] at houts
    refine ⟨houts, ?_, ?_⟩
    · intro m hm
      rw [houts, List.mem_cons] at hm
      rcases hm with heq | hm
      · simp at heq
      · simp only [List.mem_map, Prod.mk.injEq, Out.deliver.injEq, true_and] at hm
        obtain ⟨m', hm', rfl⟩ := hm
        simp only [send_cached_replay, List.mem_filter, decide_eq_true_eq] at hm'
        exact hm'.2
    · exact ((reach_cache_inv hreach cmd.topic).1).sublist (List.filter_sublist _)
  · rw [hfalse] at hcache
    cases hcache

/-- C4, witness: the amended theorem applied to the reachable two-message
cache with last_seen 0: the success reply comes first, then exactly the
message with index 1. -/
theorem c4_replay_amended_witness :
    (⟨"t", some 0, none⟩ : SubscribeCmd).cache ≠ some false ∧
    (([(1, Out.success), (1, Out.deliver m1)] : Outs) =
       (1, Out.success) ::
         (send_cached_replay 0 (sendA2.caches "t")).map (fun m => (1, Out.deliver m)) ∧
     (∀ m, (1, Out.deliver m) ∈ ([(1, Out.success), (1, Out.deliver m1)] : Outs) →
        m.index > 0) ∧
     (send_cached_replay 0 (sendA2.caches "t")).Pairwise (fun a b => a.index < b.index)) :=
  ⟨by decide,
   @c4_replay_amended 100 sendA2 trA2 1 ⟨"t", some 0, none⟩ c10state
     [(1, Out.success), (1, Out.deliver m1)] 0 reach_sendA2
     handle_subscribe_zero_eval (by decide) rfl (by decide) (by decide)⟩

/-- C8: for a non-empty, non-quit record, do_read replies with exactly
one of the three fixed failure reasons, tried in order (UTF-8 decoding,
then JSON parsing, then object/schema validation), and a protocol error
never closes the session — the read loop always continues. -/
theorem c8_codec_errors (utf8Ok : String → Bool) (parseJson : String → Option JVal)
    (line : String) (h1 : line ≠ "quit") (h2 : line ≠ "") :
    (utf8Ok line = false →
      do_read_line utf8Ok parseJson line =
        LineOutcome.failure "Could not decode input as UTF-8") ∧
    (utf8Ok line = true → parseJson line = none →
      do_read_line utf8Ok parseJson line = LineOutcome.failure "Could not parse json") ∧
    (∀ v, utf8Ok line = true → parseJson line = some v →
      (∀ o, v = JVal.obj o → verify_command o = false) →
      do_read_line utf8Ok parseJson line = LineOutcome.failure "Malformed json message") ∧
    (∀ r, do_read_line utf8Ok parseJson line = LineOutcome.failure r →
      r = "Could not decode input as UTF-8" ∨ r = "Could not parse json" ∨
      r = "Malformed json message") ∧
    session_continues (do_read_line utf8Ok parseJson line) = true := by
  have hd := do_read_line_nonempty utf8Ok parseJson line h1 h2
  refine ⟨?_, ?_, ?_, ?_, ?_⟩
  · intro hu
    rw [hd, decode_record_utf8_fail utf8Ok parseJson line hu]
  · intro hu hp
    rw [hd, decode_record_parse_fail utf8Ok parseJson line hu hp]
  · intro v hu hp hv
    cases v with
    | obj o =>
        rw [hd, decode_record_obj utf8Ok parseJson line o hu hp, hv o rfl]
        rfl
    | null =>
        rw [hd, decode_record_not_obj utf8Ok parseJson line _ hu hp (fun o h => nomatch h)]
    | bool_ b =>
        rw [hd, decode_record_not_obj utf8Ok parseJson line _ hu hp (fun o h => nomatch h)]
    | int64 n =>
        rw [hd, decode_record_not_obj utf8Ok parseJson line _ hu hp (fun o h => nomatch h)]
    | uint64 n =>
        rw [hd, decode_record_not_obj utf8Ok parseJson line _ hu hp (fun o h => nomatch h)]
    | double_ =>
        rw [hd, decode_record_not_obj utf8Ok parseJson line _ hu hp (fun o h => nomatch h)]
    | str s =>
        rw [hd, decode_record_not_obj utf8Ok parseJson line _ hu hp (fun o h => nomatch h)]
    | arr xs =>
        rw [hd, decode_record_not_obj utf8Ok parseJson line _ hu hp (fun o h => nomatch h)]
  · intro r hr
    rw [hd] at hr
    rcases decode_record_shape utf8Ok parseJson line with h | h | h | ⟨o, h⟩ <;>
      rw [h] at hr
    · exact Or.inl (LineOutcome.failure.inj hr).symm
    · exact Or.inr (Or.inl (LineOutcome.failure.inj hr).symm)
    · exact Or.inr (Or.inr (LineOutcome.failure.inj hr).symm)
    · exact LineOutcome.noConfusion hr
  · rw [hd]
    rcases decode_record_shape utf8Ok parseJson line with h | h | h | ⟨o, h⟩ <;>
      rw [h] <;> rfl

/-- C8, witness: the three failure replies on the record x, against
codecs that fail UTF-8 decoding, fail JSON parsing, and parse to an
empty object (which fails schema validation). -/
theorem c8_codec_errors_witness :
    ("x" ≠ "quit" ∧ "x" ≠ "") ∧
    do_read_line (fun _ => false) (fun _ => none) "x" =
      LineOutcome.failure "Could not decode input as UTF-8" ∧
    do_read_line (fun _ => true) (fun _ => none) "x" =
      LineOutcome.failure "Could not parse json" ∧
    do_read_line (fun _ => true) (fun _ => some (JVal.obj [])) "x" =
      LineOutcome.failure "Malformed json message" ∧
    session_continues (do_read_line (fun _ => true) (fun _ => none) "x") = true :=
  ⟨⟨by decide, by decide⟩,
   (c8_codec_errors (fun _ => false) (fun _ => none) "x" (by decide) (by decide)).1 rfl,
   (c8_codec_errors (fun _ => true) (fun _ => none) "x" (by decide) (by decide)).2.1 rfl rfl,
   (c8_codec_errors (fun _ => true) (fun _ => some (JVal.obj [])) "x" (by decide)
      (by decide)).2.2.1 (JVal.obj []) rfl rfl
      (fun o ho => by cases ho; rfl),
   (c8_codec_errors (fun _ => true) (fun _ => none) "x" (by decide) (by decide)).2.2.2.2⟩

/-- C9: for a non-negative capacity, trim_cache terminates leaving
exactly the most recent min(size, capacity) entries, dropping only from
the front; the CLI accepts a negative cache_size; and with a negative
capacity trim_cache always reaches pop_front on an empty deque
(undefined behaviour, modelled as none) — in particular any cache-on
"all" send then has no defined result. -/
theorem c9_trim_negative (cs : Int) (q : List Msg) (sid : Nat)
    (cmd : SendCmd) (pick : Nat) (s : BrokerState) :
    (0 ≤ cs →
      trim_cache cs q = some (q.drop (q.length - cs.toNat)) ∧
      (q.drop (q.length - cs.toNat)).length = min q.length cs.toNat) ∧
    cpp_main ["aiomemq", "7000", "-1"] = MainOutcome.run 7000 (-1) ∧
    (cs < 0 → trim_cache cs q = none) ∧
    (cs < 0 → cmd.delivery = "all" → cmd.cache.getD true = true →
      handle_send cs sid cmd pick s = none) := by
  refine ⟨fun h => ⟨trim_cache_of_nonneg cs h q, drop_length_min q cs.toNat⟩,
          rfl, fun h => trim_cache_of_neg cs h q, ?_⟩
  intro hneg hall hcache
  cases hh : handle_send cs sid cmd pick s with
  | none => rfl
  | some p =>
      obtain ⟨s', outs⟩ := p
      obtain ⟨-, -, -, q2, -, -, hq2⟩ := handle_send_cases hh
      rcases hq2 with ⟨-, htrim⟩ | ⟨hb, -⟩
      · rw [trim_cache_of_neg cs hneg] at htrim
        cases htrim
      · rw [hall, send_recipients_all, hcache] at hb
        simp at hb

/-- C9, witness: the theorem applied at capacity 1 (trim keeps the most
recent entry) and at capacity -1 (trim has no defined result, and the
first cache-on send against the empty broker has no defined result). -/
theorem c9_trim_negative_witness :
    ((0 : Int) ≤ 1 ∧
     trim_cache 1 [m0, mOne1] =
       some ([m0, mOne1].drop ([m0, mOne1].length - (1 : Int).toNat))) ∧
    ((-1 : Int) < 0 ∧ trim_cache (-1) [m0, mOne1] = none ∧
     handle_send (-1) 0 cmdA 0 initState = none) :=
  ⟨⟨by decide,
    ((c9_trim_negative 1 [m0, mOne1] 0 cmdA 0 initState).1 (by decide)).1⟩,
   ⟨by decide,
    (c9_trim_negative (-1) [m0, mOne1] 0 cmdA 0 initState).2.2.1 (by decide),
    (c9_trim_negative (-1) [m0, mOne1] 0 cmdA 0 initState).2.2.2 (by decide) rfl rfl⟩⟩

/-- C10: the subscribe schema types last_seen as int64, but
handle_subscribe narrows it with static_cast to int before the replay
comparison: 2^32 truncates to 0, subscribing with last_seen 2^32 behaves
exactly like subscribing with last_seen 0, and against the reachable
two-message cache it replays the message with index 1 although the
client declared 2^32 (at least 1) as already seen. -/
theorem c10_last_seen_truncation :
    template_subscribe.lookup "last_seen" = some ⟨JKind.int64, false, []⟩ ∧
    toInt32 (2 ^ 32) = 0 ∧
    handle_subscribe 100 1 ⟨"t", some (2 ^ 32), none⟩ sendA2 =
      handle_subscribe 100 1 ⟨"t", some 0, none⟩ sendA2 ∧
    handle_subscribe 100 1 ⟨"t", some (2 ^ 32), none⟩ sendA2 =
      some (c10state, [(1, Out.success), (1, Out.deliver m1)]) ∧
    (1, Out.deliver m1) ∈ ([(1, Out.success), (1, Out.deliver m1)] : Outs) ∧
    m1.index ≤ 2 ^ 32 :=
  ⟨rfl, by decide, rfl, handle_subscribe_big_eval,
   List.mem_cons_of_mem _ (List.mem_singleton_self _), by decide⟩

end Aiomemq
